import Mathlib

/-!
# Verification of the wealth-management analytics engine

Shallow embedding of the advanced-analytics module (attribution metrics,
Monte Carlo scenario simulation, stress testing and factor analysis) over
the real numbers, together with proofs of the specified properties.

JavaScript numbers are modelled by `ℝ`; the random source of the Monte
Carlo simulation is modelled by an explicitly supplied stream of uniform
draws; `Math.round` (round half toward positive infinity) is modelled by
`jround`.
-/

namespace WealthAnalytics

noncomputable section

/-- JavaScript `Math.round x`: the integer `⌊x + 1/2⌋` (half rounds toward `+∞`). -/
def jround (x : ℝ) : ℝ := (⌊x + 1/2⌋ : ℤ)

/-! ## Attribution analysis (`calculateAttributionMetrics`)

Each local constant of the source function becomes a named definition;
`n` is always the length of the portfolio series, exactly as in the source. -/

/-- `avgPortfolioReturn`: sum of the portfolio returns divided by `n`. -/
def avgPortfolioReturn (p : List ℝ) : ℝ := p.sum / p.length

/-- `avgBenchmarkReturn`: sum of the benchmark returns divided by `n`
(the source divides by the portfolio length). -/
def avgBenchmarkReturn (p b : List ℝ) : ℝ := b.sum / p.length

/-- `variance`: population variance of the portfolio returns. -/
def portfolioVariance (p : List ℝ) : ℝ :=
  (p.map (fun r => (r - avgPortfolioReturn p) ^ 2)).sum / p.length

/-- `volatility`: population standard deviation of the portfolio returns. -/
def volatilityOf (p : List ℝ) : ℝ := Real.sqrt (portfolioVariance p)

/-- `excessReturn`: average portfolio return minus `riskFreeRate / 252`. -/
def excessReturnOf (p : List ℝ) (riskFreeRate : ℝ) : ℝ :=
  avgPortfolioReturn p - riskFreeRate / 252

/-- `sharpeRatio` before rounding: excess return over volatility, 0 when volatility is not positive. -/
def sharpeRatioOf (p : List ℝ) (riskFreeRate : ℝ) : ℝ :=
  if volatilityOf p > 0 then excessReturnOf p riskFreeRate / volatilityOf p else 0

/-- `downsideReturns`: the strictly negative portfolio returns. -/
def downsideReturns (p : List ℝ) : List ℝ := p.filter (fun r => r < 0)

/-- `downsideVariance`: mean square of the downside returns (over the downside count), 0 when none. -/
def downsideVariance (p : List ℝ) : ℝ :=
  if 0 < (downsideReturns p).length then
    ((downsideReturns p).map (fun r => r ^ 2)).sum / (downsideReturns p).length
  else 0

/-- `downsideDeviation`: square root of the downside variance. -/
def downsideDeviation (p : List ℝ) : ℝ := Real.sqrt (downsideVariance p)

/-- `sortinoRatio` before rounding: excess return over downside deviation, 0 when that is not positive. -/
def sortinoRatioOf (p : List ℝ) (riskFreeRate : ℝ) : ℝ :=
  if downsideDeviation p > 0 then excessReturnOf p riskFreeRate / downsideDeviation p else 0

/-- `benchmarkVariance`: population variance of the benchmark returns (divided by `n`). -/
def benchmarkVariance (p b : List ℝ) : ℝ :=
  (b.map (fun r => (r - avgBenchmarkReturn p b) ^ 2)).sum / p.length

/-- `covariance` of the two series (divided by `n`). -/
def covarianceOf (p b : List ℝ) : ℝ :=
  (List.zipWith (fun r br => (r - avgPortfolioReturn p) * (br - avgBenchmarkReturn p b)) p b).sum
    / p.length

/-- `beta` before rounding: covariance over benchmark variance, 1 when that is not positive. -/
def betaOf (p b : List ℝ) : ℝ :=
  if benchmarkVariance p b > 0 then covarianceOf p b / benchmarkVariance p b else 1

/-- `alpha` before rounding. -/
def alphaOf (p b : List ℝ) (riskFreeRate : ℝ) : ℝ :=
  avgPortfolioReturn p -
    (riskFreeRate / 252 + betaOf p b * (avgBenchmarkReturn p b - riskFreeRate / 252))

/-- `trackingError`: root mean square of the pointwise differences of the two series. -/
def trackingErrorOf (p b : List ℝ) : ℝ :=
  Real.sqrt ((List.zipWith (fun r br => (r - br) ^ 2) p b).sum / p.length)

/-- `informationRatio` before rounding: 0 when the tracking error is not positive. -/
def informationRatioOf (p b : List ℝ) : ℝ :=
  if trackingErrorOf p b > 0 then
    (avgPortfolioReturn p - avgBenchmarkReturn p b) / trackingErrorOf p b
  else 0

/-- One iteration of the source's max-drawdown loop on the state
`(peak, maxDrawdown, cumulativeReturn)`. -/
def drawdownStep (s : ℝ × ℝ × ℝ) (r : ℝ) : ℝ × ℝ × ℝ :=
  let cum := s.2.2 * (1 + r)
  let peak := if cum > s.1 then cum else s.1
  let dd := (peak - cum) / peak
  (peak, if dd > s.2.1 then dd else s.2.1, cum)

/-- `maxDrawdown` before scaling: the loop starts with `peak = 0`, `maxDrawdown = 0`,
`cumulativeReturn = 1`. -/
def maxDrawdownOf (p : List ℝ) : ℝ := (p.foldl drawdownStep (0, 0, 1)).2.1

/-- `annualizedReturn`: average portfolio return times 252. -/
def annualizedReturnOf (p : List ℝ) : ℝ := avgPortfolioReturn p * 252

/-- `calmarRatio` before rounding: 0 when the max drawdown is not positive. -/
def calmarRatioOf (p : List ℝ) : ℝ :=
  if maxDrawdownOf p > 0 then annualizedReturnOf p / maxDrawdownOf p else 0

/-- The result record of the attribution analysis. -/
structure AttributionMetrics where
  sharpeRatio : ℝ
  sortinoRatio : ℝ
  alpha : ℝ
  beta : ℝ
  informationRatio : ℝ
  maxDrawdown : ℝ
  calmarRatio : ℝ
  volatility : ℝ
  returns : ℝ

/-- `calculateAttributionMetrics`: the all-zero record when the portfolio series is
empty, otherwise the rounded metrics (alpha, maxDrawdown, volatility and returns
are scaled to percentages). -/
def calculateAttributionMetrics (p b : List ℝ) (riskFreeRate : ℝ) : AttributionMetrics :=
  if p.length = 0 then ⟨0, 0, 0, 0, 0, 0, 0, 0, 0⟩
  else
    ⟨jround (sharpeRatioOf p riskFreeRate * 100) / 100,
     jround (sortinoRatioOf p riskFreeRate * 100) / 100,
     jround (alphaOf p b riskFreeRate * 10000) / 100,
     jround (betaOf p b * 100) / 100,
     jround (informationRatioOf p b * 100) / 100,
     jround (maxDrawdownOf p * 10000) / 100,
     jround (calmarRatioOf p * 100) / 100,
     jround (volatilityOf p * 10000) / 100,
     jround (annualizedReturnOf p * 10000) / 100⟩

/-! ## Monte Carlo simulation (`runMonteCarloSimulation`) -/

/-- One row of the scenario table returned with the simulation. -/
structure ScenarioResult where
  scenario : String
  probability : ℝ
  expectedValue : ℝ
  worstCase : ℝ
  bestCase : ℝ
  median : ℝ

/-- The percentile band record of the simulation. -/
structure ConfidenceIntervals where
  p5 : ℝ
  p25 : ℝ
  p50 : ℝ
  p75 : ℝ
  p95 : ℝ

/-- The full return value of `runMonteCarloSimulation`. -/
structure MonteCarloOutcome where
  scenarios : List ScenarioResult
  distribution : List ℝ
  confidenceIntervals : ConfidenceIntervals

/-- `generateNormalRandom`: Box-Muller transform applied to one pair `u` of
uniform draws (the source's two `Math.random()` calls). -/
def generateNormalRandom (mean stdDev : ℝ) (u : ℝ × ℝ) : ℝ :=
  mean + Real.sqrt (-2 * Real.log u.1) * Real.cos (2 * Real.pi * u.2) * stdDev

/-- One simulation trial: compound `currentPortfolioValue` through `timeHorizon`
yearly Gaussian returns drawn from the stream `draws`. -/
def simulateTrialValue (currentPortfolioValue expectedReturn volatility : ℝ)
    (timeHorizon : ℕ) (draws : ℕ → ℝ × ℝ) : ℝ :=
  (List.range timeHorizon).foldl
    (fun value year => value * (1 + generateNormalRandom expectedReturn volatility (draws year)))
    currentPortfolioValue

/-- The ascending sort the source applies to the trial results. -/
def sortAscending (l : List ℝ) : List ℝ := l.mergeSort (fun a b => decide (a ≤ b))

/-- `runMonteCarloSimulation`, with the global random source made explicit:
`draws i y` is the pair of uniform draws consumed by trial `i` in year `y`. -/
def runMonteCarloSimulation (currentPortfolioValue expectedReturn volatility : ℝ)
    (timeHorizon simulations : ℕ) (draws : ℕ → ℕ → ℝ × ℝ) : MonteCarloOutcome :=
  let results := sortAscending ((List.range simulations).map
    (fun i => simulateTrialValue currentPortfolioValue expectedReturn volatility timeHorizon
      (draws i)))
  let p5 := results.getD (Nat.floor ((simulations : ℝ) * 0.05)) 0
  let p25 := results.getD (Nat.floor ((simulations : ℝ) * 0.25)) 0
  let p50 := results.getD (Nat.floor ((simulations : ℝ) * 0.50)) 0
  let p75 := results.getD (Nat.floor ((simulations : ℝ) * 0.75)) 0
  let p95 := results.getD (Nat.floor ((simulations : ℝ) * 0.95)) 0
  let worst := results.getD 0 0
  let best := results.getD (results.length - 1) 0
  ⟨[⟨"Bear Market (-30% crash)", 5, p5, worst, best, p50⟩,
    ⟨"Recession (-15%)", 15, p25, worst, best, p50⟩,
    ⟨"Base Case (Expected Return)", 60, p50, worst, best, p50⟩,
    ⟨"Bull Market (+20%)", 15, p75, worst, best, p50⟩,
    ⟨"Euphoria (+40%)", 5, p95, worst, best, p50⟩],
   results,
   ⟨p5, p25, p50, p75, p95⟩⟩

/-! ## Stress testing (`runStressTests`) -/

/-- The allocation record over the five fixed asset classes; shock vectors use the
same shape. -/
structure AllocationWeights where
  stocks : ℝ
  bonds : ℝ
  gold : ℝ
  cash : ℝ
  alternatives : ℝ

/-- One row of the stress-test report. -/
structure StressTestResult where
  scenario : String
  description : String
  portfolioImpact : ℝ
  estimatedValue : ℝ
  recoveryTime : ℝ
  deriving Inhabited

/-- `totalAllocation`: the sum of the five category weights. -/
def totalAllocationOf (a : AllocationWeights) : ℝ :=
  a.stocks + a.bonds + a.gold + a.cash + a.alternatives

/-- `calculateScenarioImpact`: 0 when the total allocation is 0, otherwise the
allocation-weighted sum of the shocks, rounded to 2 decimals. -/
def calculateScenarioImpact (allocation changes : AllocationWeights) : ℝ :=
  if totalAllocationOf allocation = 0 then 0
  else
    jround ((allocation.stocks / totalAllocationOf allocation * changes.stocks +
      allocation.bonds / totalAllocationOf allocation * changes.bonds +
      allocation.gold / totalAllocationOf allocation * changes.gold +
      allocation.cash / totalAllocationOf allocation * changes.cash +
      allocation.alternatives / totalAllocationOf allocation * changes.alternatives) * 100) / 100

/-- The five scenario rows the source builds before filling in `estimatedValue`
(every `estimatedValue` starts at 0); the "Currency Crisis" row carries a
hardcoded impact of -15. -/
def stressScenarioList (assetAllocation : AllocationWeights) : List StressTestResult :=
  [⟨"2008 Financial Crisis", "Stocks -50%, Bonds +5%, Gold +25%",
     calculateScenarioImpact assetAllocation ⟨-50, 5, 25, 0, -30⟩, 0, 24⟩,
   ⟨"COVID-19 Crash (2020)", "Stocks -35%, Bonds +10%, Gold +15%",
     calculateScenarioImpact assetAllocation ⟨-35, 10, 15, 0, -20⟩, 0, 6⟩,
   ⟨"Dot-com Bubble (2000)", "Stocks -45%, Bonds +8%, Gold +10%",
     calculateScenarioImpact assetAllocation ⟨-45, 8, 10, 0, -40⟩, 0, 36⟩,
   ⟨"Inflation Spike", "Stocks -20%, Bonds -15%, Gold +30%",
     calculateScenarioImpact assetAllocation ⟨-20, -15, 30, -10, 5⟩, 0, 18⟩,
   ⟨"Currency Crisis", "INR depreciation -25%, Foreign assets +25%", -15, 0, 12⟩]

/-- `runStressTests`: the scenario rows with `estimatedValue` filled in as
`round(currentPortfolioValue * (1 + portfolioImpact / 100))`. -/
def runStressTests (currentPortfolioValue : ℝ) (assetAllocation : AllocationWeights) :
    List StressTestResult :=
  (stressScenarioList assetAllocation).map
    (fun s => ⟨s.scenario, s.description, s.portfolioImpact,
      jround (currentPortfolioValue * (1 + s.portfolioImpact / 100)), s.recoveryTime⟩)

/-! ## Factor analysis (`performFactorAnalysis`) -/

/-- One row of the factor decomposition. -/
structure FactorAttribution where
  factor : String
  contribution : ℝ
  description : String

/-- `performFactorAnalysis`: the source ignores both inputs and returns a fixed
five-row decomposition. -/
def performFactorAnalysis (portfolioReturns : List ℝ)
    (market size value momentum : List ℝ) : List FactorAttribution :=
  [⟨"Market Beta", 65, "Exposure to overall market movements"⟩,
   ⟨"Size Factor", 10, "Small-cap vs large-cap exposure"⟩,
   ⟨"Value Factor", 15, "Value vs growth stock exposure"⟩,
   ⟨"Momentum Factor", 5, "Trending stocks exposure"⟩,
   ⟨"Alpha (Stock Selection)", 5, "Manager skill / stock picking"⟩]

/-! ## Definitions following the specification's wording

Used where a claim asserts that the source computes a specific formula: the
formula is written out from the spec and compared with the source function. -/

/-- Modelled from the spec: the daily risk-free rate convention
`riskFreeRateAnnualPct / 100 / 252`. -/
def specDailyRiskFree (riskFreeRateAnnualPct : ℝ) : ℝ := riskFreeRateAnnualPct / 100 / 252

/-- Modelled from the spec: `sharpeRatio = (mean(portfolioReturns) - dailyRf) / volatility`
(0 if the volatility is 0) with `dailyRf = specDailyRiskFree rate`. -/
def specSharpeRatio (p : List ℝ) (riskFreeRateAnnualPct : ℝ) : ℝ :=
  if volatilityOf p > 0 then
    (avgPortfolioReturn p - specDailyRiskFree riskFreeRateAnnualPct) / volatilityOf p
  else 0

/-- Modelled from the claim's reading of the spec: the max-drawdown walk whose running
peak includes the starting value 1, i.e. the source's fold started at `peak = 1`
instead of `peak = 0`. -/
def specMaxDrawdownFromOne (p : List ℝ) : ℝ := (p.foldl drawdownStep (1, 0, 1)).2.1

/-- `v_k` for the series `l` of length `k`: the compounded value `Π (1 + r_j)`, starting at 1. -/
def cumulativeValue (l : List ℝ) : ℝ := l.foldl (fun c r => c * (1 + r)) 1

/-- The compounded-value path `v_1, …, v_n` of the series. -/
def pathValues (l : List ℝ) : List ℝ :=
  (List.range l.length).map (fun i => cumulativeValue (l.take (i + 1)))

/-- Running maximum of the compounded-value path, started from the source's initial
peak 0 (the starting value 1 is not a candidate). -/
def runningPeak (l : List ℝ) : ℝ := (pathValues l).foldl max 0

/-- `drawdown_i = (peak_i - v_i) / peak_i`, computed over the prefix of length `i + 1`. -/
def drawdownAt (l : List ℝ) (i : ℕ) : ℝ :=
  (runningPeak (l.take (i + 1)) - cumulativeValue (l.take (i + 1))) /
    runningPeak (l.take (i + 1))

/-- The maximum over `i` of `drawdown_i` (together with the initial value 0). -/
def maxDrawdownFormula (l : List ℝ) : ℝ :=
  ((List.range l.length).map (drawdownAt l)).foldl max 0

/-- Modelled from the spec: per-scenario impact
`Σ_category (allocation[category] / totalAllocation) × shock[category]`,
rounded to 2 decimals. -/
def specScenarioImpact (a ch : AllocationWeights) : ℝ :=
  jround ((a.stocks / totalAllocationOf a * ch.stocks +
    a.bonds / totalAllocationOf a * ch.bonds +
    a.gold / totalAllocationOf a * ch.gold +
    a.cash / totalAllocationOf a * ch.cash +
    a.alternatives / totalAllocationOf a * ch.alternatives) * 100) / 100

/-- Uniform rescaling of an allocation: every category weight multiplied by `c`. -/
def scaleAllocation (c : ℝ) (a : AllocationWeights) : AllocationWeights :=
  ⟨c * a.stocks, c * a.bonds, c * a.gold, c * a.cash, c * a.alternatives⟩

end

/-! ## Helper lemmas about `jround` -/

theorem jround_eq_int (x : ℝ) (n : ℤ) (h1 : (n : ℝ) ≤ x + 1/2) (h2 : x + 1/2 < (n : ℝ) + 1) :
    jround x = (n : ℝ) := by
  unfold jround
  norm_cast
  rw [Int.floor_eq_iff]
  exact ⟨h1, by linarith⟩

theorem jround_intCast (m : ℤ) : jround (m : ℝ) = (m : ℝ) :=
  jround_eq_int (m : ℝ) m (by linarith) (by linarith)

theorem jround_zero : jround 0 = 0 := by
  have h := jround_intCast 0
  simpa using h

theorem jround_hundred : jround 100 = 100 := by
  have h := jround_intCast 100
  simpa using h

theorem jround_nonneg {x : ℝ} (h : 0 ≤ x) : 0 ≤ jround x := by
  unfold jround
  have hf : (0 : ℤ) ≤ ⌊x + 1/2⌋ := Int.floor_nonneg.mpr (by linarith)
  exact_mod_cast hf

theorem jround_le_of_le {x : ℝ} {n : ℤ} (h : x ≤ (n : ℝ)) : jround x ≤ (n : ℝ) := by
  unfold jround
  have hn : ⌊((n : ℝ) + 1/2)⌋ = n := by
    rw [Int.floor_eq_iff]
    constructor
    · linarith
    · linarith
  have hf : ⌊x + 1/2⌋ ≤ n := by
    calc ⌊x + 1/2⌋ ≤ ⌊((n : ℝ) + 1/2)⌋ := Int.floor_le_floor (by linarith)
    _ = n := hn
  exact_mod_cast hf

/-! ## C4: empty series give the all-zero attribution record -/

/-- C4: for every risk-free rate, `calculateAttributionMetrics` applied to two empty
return series returns the all-zero record (all nine fields are 0); it is a total
function, so no error is possible. -/
theorem c4_empty_series_all_zero (riskFreeRate : ℝ) :
    calculateAttributionMetrics [] [] riskFreeRate = ⟨0, 0, 0, 0, 0, 0, 0, 0, 0⟩ := by
  simp [calculateAttributionMetrics]

/-! ## C9: the factor analysis ignores its inputs -/

/-- C9: for every portfolio return series and every quadruple of factor return series,
`performFactorAnalysis` returns the same fixed five-row decomposition
(Market Beta 65, Size 10, Value 15, Momentum 5, Alpha 5). -/
theorem c9_factor_analysis_constant (portfolioReturns market size value momentum : List ℝ) :
    performFactorAnalysis portfolioReturns market size value momentum =
      [⟨"Market Beta", 65, "Exposure to overall market movements"⟩,
       ⟨"Size Factor", 10, "Small-cap vs large-cap exposure"⟩,
       ⟨"Value Factor", 15, "Value vs growth stock exposure"⟩,
       ⟨"Momentum Factor", 5, "Trending stocks exposure"⟩,
       ⟨"Alpha (Stock Selection)", 5, "Manager skill / stock picking"⟩] := rfl

/-! ## C1: stress tests with an all-zero allocation -/

theorem runStressTests_zero_alloc (cv : ℝ) :
    (runStressTests cv ⟨0, 0, 0, 0, 0⟩).map (fun s => (s.scenario, s.portfolioImpact)) =
      [("2008 Financial Crisis", 0), ("COVID-19 Crash (2020)", 0),
       ("Dot-com Bubble (2000)", 0), ("Inflation Spike", 0), ("Currency Crisis", -15)] := by
  have h : totalAllocationOf ⟨0, 0, 0, 0, 0⟩ = 0 := by
    simp [totalAllocationOf]
  simp [runStressTests, stressScenarioList, calculateScenarioImpact, h]

/-- C1 counterexample: with the all-zero allocation, not every returned scenario has
`portfolioImpact = 0` — the hardcoded "Currency Crisis" row has impact -15. -/
theorem c1_counterexample :
    ¬ ∀ s ∈ runStressTests 1000000 ⟨0, 0, 0, 0, 0⟩, s.portfolioImpact = 0 := by
  intro h
  have hmem : ("Currency Crisis", (-15 : ℝ)) ∈
      (runStressTests 1000000 ⟨0, 0, 0, 0, 0⟩).map (fun s => (s.scenario, s.portfolioImpact)) := by
    rw [runStressTests_zero_alloc 1000000]
    simp
  obtain ⟨s, hs, hpair⟩ := List.mem_map.mp hmem
  have h0 := h s hs
  rw [Prod.mk.injEq] at hpair
  rw [h0] at hpair
  have : (0 : ℝ) = -15 := hpair.2
  norm_num at this

/-- C1 amended: with the all-zero allocation, every scenario computed from the
allocation has `portfolioImpact = 0`; only the hardcoded "Currency Crisis" row is
the exception, with its fixed impact -15. -/
theorem c1_amended_zero_alloc (currentValue : ℝ) :
    (runStressTests currentValue ⟨0, 0, 0, 0, 0⟩).map (fun s => (s.scenario, s.portfolioImpact)) =
      [("2008 Financial Crisis", 0), ("COVID-19 Crash (2020)", 0),
       ("Dot-com Bubble (2000)", 0), ("Inflation Spike", 0), ("Currency Crisis", -15)] :=
  runStressTests_zero_alloc currentValue

/-! ## C10: invariance of the stress tests under uniform rescaling -/

theorem calculateScenarioImpact_scale (c : ℝ) (hc : c ≠ 0) (a ch : AllocationWeights) :
    calculateScenarioImpact (scaleAllocation c a) ch = calculateScenarioImpact a ch := by
  have htot : totalAllocationOf (scaleAllocation c a) = c * totalAllocationOf a := by
    simp only [totalAllocationOf, scaleAllocation]
    ring
  by_cases h : totalAllocationOf a = 0
  · simp [calculateScenarioImpact, htot, h]
  · have h' : c * totalAllocationOf a ≠ 0 := mul_ne_zero hc h
    rw [calculateScenarioImpact, calculateScenarioImpact, htot, if_neg h', if_neg h]
    simp only [scaleAllocation]
    rw [mul_div_mul_left _ _ hc, mul_div_mul_left _ _ hc, mul_div_mul_left _ _ hc,
      mul_div_mul_left _ _ hc, mul_div_mul_left _ _ hc]

/-- C10: for every current value, every allocation and every scale factor `c > 0`,
running the stress tests with every category weight multiplied by `c` returns
exactly the same list of results as the unscaled allocation. -/
theorem c10_scale_invariance (currentValue c : ℝ) (a : AllocationWeights) (hc : 0 < c) :
    runStressTests currentValue (scaleAllocation c a) = runStressTests currentValue a := by
  have h := calculateScenarioImpact_scale c hc.ne' a
  simp [runStressTests, stressScenarioList, h]

/-- Witness for C10 at a concrete input. -/
theorem c10_witness :
    runStressTests 100 (scaleAllocation 2 ⟨1, 2, 3, 4, 5⟩) = runStressTests 100 ⟨1, 2, 3, 4, 5⟩ :=
  c10_scale_invariance 100 2 ⟨1, 2, 3, 4, 5⟩ (by norm_num)

/-! ## C7: the stress-test weighting formula -/

theorem stress_impact_hundred_stocks :
    calculateScenarioImpact ⟨100, 0, 0, 0, 0⟩ ⟨-50, 5, 25, 0, -30⟩ = -50 := by
  rw [calculateScenarioImpact, if_neg (by norm_num [totalAllocationOf])]
  have harg : ((100 : ℝ) / totalAllocationOf ⟨100, 0, 0, 0, 0⟩ * (-50) +
      (0 : ℝ) / totalAllocationOf ⟨100, 0, 0, 0, 0⟩ * 5 +
      (0 : ℝ) / totalAllocationOf ⟨100, 0, 0, 0, 0⟩ * 25 +
      (0 : ℝ) / totalAllocationOf ⟨100, 0, 0, 0, 0⟩ * 0 +
      (0 : ℝ) / totalAllocationOf ⟨100, 0, 0, 0, 0⟩ * (-30)) * 100 = ((-5000 : ℤ) : ℝ) := by
    norm_num [totalAllocationOf]
  rw [harg, jround_intCast]
  norm_num

/-- C7: for every current value and every allocation with nonzero total, each
allocation-derived scenario impact equals the spec's weighted-sum formula rounded to
2 decimals, every returned row has `estimatedValue = round(currentValue *
(1 + portfolioImpact / 100))`, and in particular a 100%-stocks allocation under the
stocks -50 shock yields impact -50 and estimated value 500000 from 1000000. -/
theorem c7_stress_formula (currentValue : ℝ) (a : AllocationWeights)
    (htot : totalAllocationOf a ≠ 0) :
    (∀ ch : AllocationWeights, calculateScenarioImpact a ch = specScenarioImpact a ch) ∧
    (∀ s ∈ runStressTests currentValue a,
      s.estimatedValue = jround (currentValue * (1 + s.portfolioImpact / 100))) ∧
    calculateScenarioImpact ⟨100, 0, 0, 0, 0⟩ ⟨-50, 5, 25, 0, -30⟩ = -50 ∧
    ((runStressTests 1000000 ⟨100, 0, 0, 0, 0⟩).getD 0 default).portfolioImpact = -50 ∧
    ((runStressTests 1000000 ⟨100, 0, 0, 0, 0⟩).getD 0 default).estimatedValue = 500000 := by
  have himp := stress_impact_hundred_stocks
  refine ⟨?_, ?_, himp, ?_, ?_⟩
  · intro ch
    rw [calculateScenarioImpact, specScenarioImpact, if_neg htot]
  · intro s hs
    rw [runStressTests] at hs
    obtain ⟨t, ht, rfl⟩ := List.mem_map.mp hs
    rfl
  · simp [runStressTests, stressScenarioList, himp]
  · simp only [runStressTests, stressScenarioList, List.map_cons, List.getD_cons_zero, himp]
    have harg : (1000000 : ℝ) * (1 + (-50) / 100) = ((500000 : ℤ) : ℝ) := by norm_num
    rw [harg, jround_intCast]
    norm_num

/-- Witness for C7 at the concrete input of the spec's property P4. -/
theorem c7_witness :
    ((runStressTests 1000000 ⟨100, 0, 0, 0, 0⟩).getD 0 default).portfolioImpact = -50 ∧
    ((runStressTests 1000000 ⟨100, 0, 0, 0, 0⟩).getD 0 default).estimatedValue = 500000 := by
  have h := c7_stress_formula 1000000 ⟨100, 0, 0, 0, 0⟩ (by norm_num [totalAllocationOf])
  exact ⟨h.2.2.2.1, h.2.2.2.2⟩

/-! ## C2: the daily risk-free rate used by the code -/

/-- C2 (code bug evidence): at `portfolioReturns = [0, 2]`, `benchmarkReturns = [0, 0]`
and annual risk-free percentage 252, the code's Sharpe ratio is 0 because it uses
`riskFreeRate / 252` (so the daily rate is 1), while the spec's convention
`riskFreeRate / 100 / 252` (daily rate 0.01) gives a Sharpe ratio of 0.99. -/
theorem c2_daily_riskfree_divergence :
    (calculateAttributionMetrics [0, 2] [0, 0] 252).sharpeRatio = 0 ∧
    specSharpeRatio [0, 2] 252 = 99 / 100 := by
  have havg : avgPortfolioReturn [0, 2] = 1 := by
    norm_num [avgPortfolioReturn]
  have hvar : portfolioVariance [0, 2] = 1 := by
    simp only [portfolioVariance, havg]
    norm_num
  have hvol : volatilityOf [0, 2] = 1 := by
    rw [volatilityOf, hvar, Real.sqrt_one]
  constructor
  · have hsh : sharpeRatioOf [0, 2] 252 = 0 := by
      rw [sharpeRatioOf, if_pos (by rw [hvol]; norm_num), excessReturnOf, havg, hvol]
      norm_num
    have hn : ¬ ([0, 2] : List ℝ).length = 0 := by simp
    simp only [calculateAttributionMetrics, if_neg hn, hsh]
    simp [jround_zero]
  · rw [specSharpeRatio, if_pos (by rw [hvol]; norm_num), havg, hvol, specDailyRiskFree]
    norm_num

/-! ## C5: every division is guarded with a documented default -/

/-- C5: on every pair of equal-length nonempty series the metrics are total with the
documented defaults: `sharpeRatio = 0` when the volatility is 0, `sortinoRatio = 0`
when there are no negative returns or the downside deviation is 0, `beta = 1` when
the benchmark series is constant, `informationRatio = 0` when the tracking error is
0, and `calmarRatio = 0` when the max drawdown is 0. -/
theorem c5_guarded_defaults (p b : List ℝ) (riskFreeRate : ℝ)
    (hlen : p.length = b.length) (hne : p ≠ []) :
    (volatilityOf p = 0 → (calculateAttributionMetrics p b riskFreeRate).sharpeRatio = 0) ∧
    (downsideReturns p = [] ∨ downsideDeviation p = 0 →
      (calculateAttributionMetrics p b riskFreeRate).sortinoRatio = 0) ∧
    (∀ c : ℝ, (∀ x ∈ b, x = c) → (calculateAttributionMetrics p b riskFreeRate).beta = 1) ∧
    (trackingErrorOf p b = 0 →
      (calculateAttributionMetrics p b riskFreeRate).informationRatio = 0) ∧
    (maxDrawdownOf p = 0 → (calculateAttributionMetrics p b riskFreeRate).calmarRatio = 0) := by
  have hn : ¬ p.length = 0 := by
    simpa [List.length_eq_zero] using hne
  refine ⟨?_, ?_, ?_, ?_, ?_⟩
  · intro hv
    simp only [calculateAttributionMetrics, if_neg hn]
    rw [sharpeRatioOf, if_neg (by rw [hv]; exact lt_irrefl 0)]
    simp [jround_zero]
  · intro h
    have hdd : downsideDeviation p = 0 := by
      rcases h with h0 | h0
      · rw [downsideDeviation, downsideVariance, h0]
        simp
      · exact h0
    simp only [calculateAttributionMetrics, if_neg hn]
    rw [sortinoRatioOf, if_neg (by rw [hdd]; exact lt_irrefl 0)]
    simp [jround_zero]
  · intro c hc
    have hlen' : (p.length : ℝ) ≠ 0 := by
      exact_mod_cast hn
    have havgB : avgBenchmarkReturn p b = c := by
      rw [avgBenchmarkReturn, List.sum_eq_card_nsmul b c hc, nsmul_eq_mul, ← hlen,
        mul_comm, mul_div_assoc, div_self hlen', mul_one]
    have hbv : benchmarkVariance p b = 0 := by
      rw [benchmarkVariance, havgB]
      have hsum : (b.map (fun r => (r - c) ^ 2)).sum = 0 := by
        apply List.sum_eq_zero
        intro x hx
        obtain ⟨r, hr, rfl⟩ := List.mem_map.mp hx
        rw [hc r hr]
        ring
      rw [hsum, zero_div]
    simp only [calculateAttributionMetrics, if_neg hn]
    rw [betaOf, if_neg (by rw [hbv]; exact lt_irrefl 0)]
    rw [show (1 : ℝ) * 100 = 100 by norm_num, jround_hundred]
    norm_num
  · intro h
    simp only [calculateAttributionMetrics, if_neg hn]
    rw [informationRatioOf, if_neg (by rw [h]; exact lt_irrefl 0)]
    simp [jround_zero]
  · intro h
    simp only [calculateAttributionMetrics, if_neg hn]
    rw [calmarRatioOf, if_neg (by rw [h]; exact lt_irrefl 0)]
    simp [jround_zero]

/-- Witness for C5: the constant series of the spec's properties P2 and P8. -/
theorem c5_witness :
    (calculateAttributionMetrics [1/100, 1/100, 1/100, 1/100] [3/100, 3/100, 3/100, 3/100]
      (13/2)).sharpeRatio = 0 ∧
    (calculateAttributionMetrics [1/100, 1/100, 1/100, 1/100] [3/100, 3/100, 3/100, 3/100]
      (13/2)).sortinoRatio = 0 ∧
    (calculateAttributionMetrics [1/100, 1/100, 1/100, 1/100] [3/100, 3/100, 3/100, 3/100]
      (13/2)).beta = 1 := by
  have h := c5_guarded_defaults [1/100, 1/100, 1/100, 1/100] [3/100, 3/100, 3/100, 3/100]
    (13/2) (by simp) (by simp)
  have hvol : volatilityOf [1/100, 1/100, 1/100, 1/100] = 0 := by
    have hvar : portfolioVariance [1/100, 1/100, 1/100, 1/100] = 0 := by
      norm_num [portfolioVariance, avgPortfolioReturn]
    rw [volatilityOf, hvar, Real.sqrt_zero]
  have hdown : downsideReturns [1/100, 1/100, 1/100, 1/100] = ([] : List ℝ) := by
    norm_num [downsideReturns, List.filter_cons, decide_eq_true_eq]
  refine ⟨h.1 hvol, h.2.1 (Or.inl hdown), h.2.2.1 (3/100) ?_⟩
  intro x hx
  simp only [List.mem_cons, List.not_mem_nil, or_false] at hx
  rcases hx with h1 | h1 | h1 | h1 <;> exact h1

/-! ## The max-drawdown walk: characterization and bounds (C3, C8) -/

theorem ite_gt_eq_max (a b : ℝ) : (if a > b then a else b) = max b a := by
  rcases le_or_lt a b with h | h
  · rw [if_neg (not_lt.mpr h), max_eq_left h]
  · rw [if_pos h, max_eq_right h.le]

theorem le_foldl_max (b : ℝ) (xs : List ℝ) : b ≤ xs.foldl max b := by
  induction xs generalizing b with
  | nil => exact le_refl b
  | cons x t ih => exact le_trans (le_max_left b x) (ih (max b x))

theorem cumulativeValue_append (q : List ℝ) (r : ℝ) :
    cumulativeValue (q ++ [r]) = cumulativeValue q * (1 + r) := by
  simp [cumulativeValue, List.foldl_append]

theorem pathValues_append (q : List ℝ) (r : ℝ) :
    pathValues (q ++ [r]) = pathValues q ++ [cumulativeValue (q ++ [r])] := by
  have hlen : (q ++ [r]).length = q.length + 1 := by simp
  simp only [pathValues, hlen, List.range_succ, List.map_append, List.map_singleton]
  congr 1
  · apply List.map_congr_left
    intro i hi
    rw [List.mem_range] at hi
    rw [List.take_append_of_le_length (by omega)]
  · rw [List.take_of_length_le (by simp)]

theorem runningPeak_append (q : List ℝ) (r : ℝ) :
    runningPeak (q ++ [r]) = max (runningPeak q) (cumulativeValue (q ++ [r])) := by
  unfold runningPeak
  rw [pathValues_append, List.foldl_append]
  simp

theorem drawdownAt_append (q : List ℝ) (r : ℝ) (i : ℕ) (hi : i < q.length) :
    drawdownAt (q ++ [r]) i = drawdownAt q i := by
  unfold drawdownAt
  rw [List.take_append_of_le_length (by omega)]

theorem drawdownAt_last (q : List ℝ) (r : ℝ) :
    drawdownAt (q ++ [r]) q.length =
      (runningPeak (q ++ [r]) - cumulativeValue (q ++ [r])) / runningPeak (q ++ [r]) := by
  unfold drawdownAt
  rw [List.take_of_length_le (by simp)]

theorem maxDrawdownFormula_append (q : List ℝ) (r : ℝ) :
    maxDrawdownFormula (q ++ [r]) =
      max (maxDrawdownFormula q) (drawdownAt (q ++ [r]) q.length) := by
  unfold maxDrawdownFormula
  have hlen : (q ++ [r]).length = q.length + 1 := by simp
  rw [hlen, List.range_succ, List.map_append, List.map_singleton, List.foldl_append]
  have hmap : (List.range q.length).map (drawdownAt (q ++ [r])) =
      (List.range q.length).map (drawdownAt q) := by
    apply List.map_congr_left
    intro i hi
    rw [List.mem_range] at hi
    exact drawdownAt_append q r i hi
  rw [hmap]
  simp

theorem drawdown_foldl_characterization (l : List ℝ) : ∀ q : List ℝ,
    l.foldl drawdownStep (runningPeak q, maxDrawdownFormula q, cumulativeValue q) =
      (runningPeak (q ++ l), maxDrawdownFormula (q ++ l), cumulativeValue (q ++ l)) := by
  induction l with
  | nil =>
    intro q
    simp
  | cons r t ih =>
    intro q
    rw [List.foldl_cons]
    have hc : cumulativeValue (q ++ [r]) = cumulativeValue q * (1 + r) :=
      cumulativeValue_append q r
    have hp : runningPeak (q ++ [r]) =
        max (runningPeak q) (cumulativeValue q * (1 + r)) := by
      rw [runningPeak_append, hc]
    have hm : maxDrawdownFormula (q ++ [r]) =
        max (maxDrawdownFormula q)
          ((max (runningPeak q) (cumulativeValue q * (1 + r)) - cumulativeValue q * (1 + r)) /
            max (runningPeak q) (cumulativeValue q * (1 + r))) := by
      rw [maxDrawdownFormula_append, drawdownAt_last, hp, hc]
    have hstep : drawdownStep (runningPeak q, maxDrawdownFormula q, cumulativeValue q) r =
        (runningPeak (q ++ [r]), maxDrawdownFormula (q ++ [r]), cumulativeValue (q ++ [r])) := by
      simp only [drawdownStep]
      rw [hc, hp, hm, ite_gt_eq_max, ite_gt_eq_max]
    rw [hstep, ih (q ++ [r])]
    simp

theorem maxDrawdownOf_eq_formula (l : List ℝ) : maxDrawdownOf l = maxDrawdownFormula l := by
  have h := drawdown_foldl_characterization l []
  have h0 : ((0 : ℝ), (0 : ℝ), (1 : ℝ)) =
      (runningPeak ([] : List ℝ), maxDrawdownFormula ([] : List ℝ),
        cumulativeValue ([] : List ℝ)) := by
    simp [runningPeak, pathValues, maxDrawdownFormula, cumulativeValue]
  rw [maxDrawdownOf, h0, h]
  simp

theorem drawdown_foldl_bounds (l : List ℝ) (hr : ∀ r ∈ l, -1 < r) :
    ∀ s : ℝ × ℝ × ℝ, 0 < s.2.2 → 0 ≤ s.1 → 0 ≤ s.2.1 → s.2.1 ≤ 1 →
      0 ≤ (l.foldl drawdownStep s).2.1 ∧ (l.foldl drawdownStep s).2.1 ≤ 1 := by
  induction l with
  | nil =>
    intro s _ _ h0 h1
    exact ⟨h0, h1⟩
  | cons r t ih =>
    intro s hcum hpeak hdd0 hdd1
    have hr0 : -1 < r := hr r (List.mem_cons_self r t)
    have hrt : ∀ x ∈ t, -1 < x := fun x hx => hr x (List.mem_cons_of_mem r hx)
    rw [List.foldl_cons]
    rw [show drawdownStep s r =
        (max s.1 (s.2.2 * (1 + r)),
         max s.2.1 ((max s.1 (s.2.2 * (1 + r)) - s.2.2 * (1 + r)) /
           max s.1 (s.2.2 * (1 + r))),
         s.2.2 * (1 + r)) from by
      simp only [drawdownStep]
      rw [ite_gt_eq_max, ite_gt_eq_max]]
    have hCpos : 0 < s.2.2 * (1 + r) := mul_pos hcum (by linarith)
    have hCP : s.2.2 * (1 + r) ≤ max s.1 (s.2.2 * (1 + r)) := le_max_right _ _
    have hPpos : 0 < max s.1 (s.2.2 * (1 + r)) := lt_of_lt_of_le hCpos hCP
    have hD0 : 0 ≤ (max s.1 (s.2.2 * (1 + r)) - s.2.2 * (1 + r)) /
        max s.1 (s.2.2 * (1 + r)) :=
      div_nonneg (by linarith) hPpos.le
    have hD1 : (max s.1 (s.2.2 * (1 + r)) - s.2.2 * (1 + r)) /
        max s.1 (s.2.2 * (1 + r)) ≤ 1 := by
      rw [div_le_one hPpos]
      linarith
    apply ih hrt
    · exact hCpos
    · exact le_trans hCpos.le hCP
    · exact le_trans hdd0 (le_max_left _ _)
    · exact max_le hdd1 hD1

/-- C3 counterexample: for the single-return series `[-1/2]` (first return negative,
path never recovers above 1) the source's max drawdown is 0, not positive, while the
walk whose peak includes the starting value 1 gives 1/2. -/
theorem c3_counterexample :
    maxDrawdownOf [-(1/2)] = 0 ∧ specMaxDrawdownFromOne [-(1/2)] = 1/2 ∧
    (calculateAttributionMetrics [-(1/2)] [0] (13/2)).maxDrawdown = 0 := by
  have hmd : maxDrawdownOf [-(1/2)] = 0 := by
    unfold maxDrawdownOf drawdownStep
    norm_num
  refine ⟨hmd, ?_, ?_⟩
  · unfold specMaxDrawdownFromOne drawdownStep
    norm_num
  · have hn : ¬ ([-(1/2)] : List ℝ).length = 0 := by simp
    simp only [calculateAttributionMetrics, if_neg hn, hmd]
    simp [jround_zero]

/-- C3 amended: for every non-empty return series of returns above -1, the source's
max drawdown equals the maximum over `i` of `(peak_i - v_i) / peak_i` where `peak_i`
is the running maximum of the compounded path `v_1, …, v_i` started from the initial
peak 0 — the starting value 1 is not a peak candidate — and the result is ≥ 0. -/
theorem c3_amended_drawdown (l : List ℝ) (hne : l ≠ []) (hr : ∀ r ∈ l, -1 < r) :
    maxDrawdownOf l = maxDrawdownFormula l ∧ 0 ≤ maxDrawdownOf l := by
  constructor
  · exact maxDrawdownOf_eq_formula l
  · rw [maxDrawdownOf_eq_formula l, maxDrawdownFormula]
    exact le_foldl_max 0 _

/-- Witness for the amended C3 at a concrete series. -/
theorem c3_amended_witness :
    maxDrawdownOf [1, -(1/2)] = maxDrawdownFormula [1, -(1/2)] ∧
    0 ≤ maxDrawdownOf [1, -(1/2)] :=
  c3_amended_drawdown [1, -(1/2)] (by simp) (by norm_num)

/-- C8: for every return series with every return above -1, the max-drawdown
fraction lies in [0, 1] and the reported (percentage-scaled, rounded) field lies
in [0, 100]. -/
theorem c8_drawdown_bounds (p b : List ℝ) (riskFreeRate : ℝ) (hr : ∀ r ∈ p, -1 < r) :
    0 ≤ maxDrawdownOf p ∧ maxDrawdownOf p ≤ 1 ∧
    0 ≤ (calculateAttributionMetrics p b riskFreeRate).maxDrawdown ∧
    (calculateAttributionMetrics p b riskFreeRate).maxDrawdown ≤ 100 := by
  have hb := drawdown_foldl_bounds p hr (0, 0, 1) (by norm_num) (by norm_num)
    (by norm_num) (by norm_num)
  have h0 : 0 ≤ maxDrawdownOf p := hb.1
  have h1 : maxDrawdownOf p ≤ 1 := hb.2
  refine ⟨h0, h1, ?_, ?_⟩
  · by_cases hn : p.length = 0
    · simp [calculateAttributionMetrics, hn]
    · simp only [calculateAttributionMetrics, if_neg hn]
      apply div_nonneg _ (by norm_num)
      exact jround_nonneg (mul_nonneg h0 (by norm_num))
  · by_cases hn : p.length = 0
    · simp [calculateAttributionMetrics, hn]
    · simp only [calculateAttributionMetrics, if_neg hn]
      rw [div_le_iff₀ (by norm_num : (0 : ℝ) < 100)]
      have hle : jround (maxDrawdownOf p * 10000) ≤ ((10000 : ℤ) : ℝ) :=
        jround_le_of_le (by push_cast; linarith)
      push_cast at hle
      linarith

/-- Witness for C8 at a concrete series. -/
theorem c8_witness :
    0 ≤ maxDrawdownOf [1/2, -(1/4)] ∧ maxDrawdownOf [1/2, -(1/4)] ≤ 1 ∧
    0 ≤ (calculateAttributionMetrics [1/2, -(1/4)] [] 0).maxDrawdown ∧
    (calculateAttributionMetrics [1/2, -(1/4)] [] 0).maxDrawdown ≤ 100 :=
  c8_drawdown_bounds [1/2, -(1/4)] [] 0 (by norm_num)

/-! ## C6: degenerate Monte Carlo runs -/

theorem foldl_mul_const (c v : ℝ) (T : ℕ) :
    (List.range T).foldl (fun value _ => value * c) v = v * c ^ T := by
  induction T with
  | zero => simp
  | succ n ih =>
    rw [List.range_succ, List.foldl_append, ih, List.foldl_cons, List.foldl_nil, pow_succ,
      mul_assoc]

theorem simulateTrialValue_vol_zero (cv er : ℝ) (T : ℕ) (d : ℕ → ℝ × ℝ) :
    simulateTrialValue cv er 0 T d = cv * (1 + er) ^ T := by
  rw [simulateTrialValue]
  have hg : ∀ y : ℕ, generateNormalRandom er 0 (d y) = er := by
    intro y
    rw [generateNormalRandom]
    ring
  simp only [hg]
  exact foldl_mul_const (1 + er) cv T

theorem getD_eq_of_forall_eq (l : List ℝ) (V : ℝ) (h : ∀ x ∈ l, x = V) (i : ℕ)
    (hi : i < l.length) :
    l.getD i 0 = V := by
  rw [List.getD_eq_getElem?_getD, List.getElem?_eq_getElem hi]
  exact h _ (List.getElem_mem hi)

theorem runMonteCarlo_const (cv er vol : ℝ) (T sims : ℕ) (draws : ℕ → ℕ → ℝ × ℝ) (V : ℝ)
    (hs : 0 < sims) (hV : ∀ i, simulateTrialValue cv er vol T (draws i) = V) :
    (∀ x ∈ (runMonteCarloSimulation cv er vol T sims draws).distribution, x = V) ∧
    (runMonteCarloSimulation cv er vol T sims draws).confidenceIntervals.p5 = V ∧
    (runMonteCarloSimulation cv er vol T sims draws).confidenceIntervals.p50 = V ∧
    (runMonteCarloSimulation cv er vol T sims draws).confidenceIntervals.p95 = V := by
  have hall : ∀ x ∈ sortAscending ((List.range sims).map
      (fun i => simulateTrialValue cv er vol T (draws i))), x = V := by
    intro x hx
    rw [sortAscending, List.mem_mergeSort] at hx
    obtain ⟨i, hi, rfl⟩ := List.mem_map.mp hx
    exact hV i
  have hlen : (sortAscending ((List.range sims).map
      (fun i => simulateTrialValue cv er vol T (draws i)))).length = sims := by
    rw [sortAscending, List.length_mergeSort, List.length_map, List.length_range]
  have hidx : ∀ q : ℝ, 0 ≤ q → q < 1 → Nat.floor ((sims : ℝ) * q) < sims := by
    intro q hq0 hq1
    rw [Nat.floor_lt (mul_nonneg (Nat.cast_nonneg sims) hq0)]
    calc (sims : ℝ) * q < (sims : ℝ) * 1 :=
      mul_lt_mul_of_pos_left hq1 (by exact_mod_cast hs)
    _ = sims := mul_one _
  refine ⟨hall, ?_, ?_, ?_⟩
  · show (sortAscending ((List.range sims).map
        (fun i => simulateTrialValue cv er vol T (draws i)))).getD
        (Nat.floor ((sims : ℝ) * 0.05)) 0 = V
    apply getD_eq_of_forall_eq _ V hall
    rw [hlen]
    exact hidx 0.05 (by norm_num) (by norm_num)
  · show (sortAscending ((List.range sims).map
        (fun i => simulateTrialValue cv er vol T (draws i)))).getD
        (Nat.floor ((sims : ℝ) * 0.50)) 0 = V
    apply getD_eq_of_forall_eq _ V hall
    rw [hlen]
    exact hidx 0.50 (by norm_num) (by norm_num)
  · show (sortAscending ((List.range sims).map
        (fun i => simulateTrialValue cv er vol T (draws i)))).getD
        (Nat.floor ((sims : ℝ) * 0.95)) 0 = V
    apply getD_eq_of_forall_eq _ V hall
    rw [hlen]
    exact hidx 0.95 (by norm_num) (by norm_num)

/-- C6: for every simulation configuration with a positive simulation count and
uniform draws inside (0,1): with volatility 0 every element of the returned
distribution equals `currentValue * (1 + expectedReturn) ^ timeHorizon` and
`p5 = p50 = p95` (each equals that value); with time horizon 0 every element of
the distribution equals `currentValue`. -/
theorem c6_monte_carlo_degenerate (cv er vol : ℝ) (T sims : ℕ) (draws : ℕ → ℕ → ℝ × ℝ)
    (hs : 0 < sims)
    (hu : ∀ i y, 0 < (draws i y).1 ∧ (draws i y).1 < 1 ∧
      0 < (draws i y).2 ∧ (draws i y).2 < 1) :
    (vol = 0 →
      (∀ x ∈ (runMonteCarloSimulation cv er vol T sims draws).distribution,
        x = cv * (1 + er) ^ T) ∧
      (runMonteCarloSimulation cv er vol T sims draws).confidenceIntervals.p5 =
        cv * (1 + er) ^ T ∧
      (runMonteCarloSimulation cv er vol T sims draws).confidenceIntervals.p50 =
        cv * (1 + er) ^ T ∧
      (runMonteCarloSimulation cv er vol T sims draws).confidenceIntervals.p95 =
        cv * (1 + er) ^ T) ∧
    (T = 0 →
      ∀ x ∈ (runMonteCarloSimulation cv er vol T sims draws).distribution, x = cv) := by
  constructor
  · intro hvol
    subst hvol
    exact runMonteCarlo_const cv er 0 T sims draws (cv * (1 + er) ^ T) hs
      (fun i => simulateTrialValue_vol_zero cv er T (draws i))
  · intro hT
    subst hT
    have h := runMonteCarlo_const cv er vol 0 sims draws cv hs
      (fun i => by rw [simulateTrialValue]; simp)
    exact h.1

/-- Witness for C6 at the concrete configuration of the spec's property P3. -/
theorem c6_witness :
    (runMonteCarloSimulation 1000000 (12/100) 0 5 100
      (fun _ _ => (1/2, 1/2))).confidenceIntervals.p50 = 1000000 * (1 + 12/100) ^ 5 :=
  ((c6_monte_carlo_degenerate 1000000 (12/100) 0 5 100 (fun _ _ => (1/2, 1/2))
    (by norm_num) (fun i y => by norm_num)).1 rfl).2.2.1

end WealthAnalytics
